import Mathlib

/-! Shallow embedding of the `SupplyChain` Solidity contract
(`apps/contracts/contracts/SupplyChain.sol`) together with proofs of the
behavioural properties claimed in the repository's specification.

Addresses are modelled as `Nat` (`0` is `address(0)`), `block.timestamp` as a
`Nat` parameter `now`, Solidity mappings as total functions with the zero
value as default (exactly the EVM storage semantics), and `require`/`revert`
as the error case of `Except`: a reverted call leaves the state unchanged and
emits no event, which `applyOp` makes explicit.
-/

namespace SupplyChain

/-- The `Status` enum of the contract (ordinals 0..4). -/
inductive Status where
  | Created
  | InTransit
  | DeliveredToDistributor
  | DeliveredToRetailer
  | DeliveredToConsumer
deriving DecidableEq

/-- The `Batch` struct of the contract. -/
structure Batch where
  batchId : String
  quantity : Nat
  userId : String
  internalBatchName : String
  manufacturingDate : Nat
  status : Status
  currentLocation : String
  currentHolder : Nat
  history : List String
deriving DecidableEq

/-- The default (all-zero) value of a `Batch` storage slot: what
`batches[id]` holds before any write, per EVM storage semantics. -/
def zeroBatch : Batch :=
  { batchId := "", quantity := 0, userId := "", internalBatchName := "",
    manufacturingDate := 0, status := Status.Created, currentLocation := "",
    currentHolder := 0, history := [] }

/-- Error kinds, one per distinct `require`/`revert` family in the contract:
`Unauthorized` for the `onlyRole` modifier and the caller checks inside
`updateBatchStatus`, `NotFound` for the `batchExists` modifier,
`AlreadyExists` for the duplicate-id check in `createBatch`,
`InvalidArgument` for empty id / zero quantity / zero address, and
`InvalidTransition` for the status checks in `updateBatchStatus`. -/
inductive Err where
  | Unauthorized
  | NotFound
  | AlreadyExists
  | InvalidArgument
  | InvalidTransition
deriving DecidableEq

/-- The events the contract emits. -/
inductive Event where
  | BatchCreated (batchId internalBatchName : String) (quantity : Nat) (userId : String)
  | BatchStatusUpdated (batchId newStatus : String) (sender : Nat) (location : String)
deriving DecidableEq

/-- The full contract storage: the three role addresses, the
`batches` mapping, the `allBatchIds` array and the `userBatches` mapping. -/
structure SCState where
  manufacturer : Nat
  distributor : Nat
  retailer : Nat
  batches : String → Batch
  allBatchIds : List String
  userBatches : String → List String

/-- The constructor: the deployer becomes `manufacturer`; storage starts
all-zero. -/
def initState (deployer dist ret : Nat) : SCState :=
  { manufacturer := deployer, distributor := dist, retailer := ret,
    batches := fun _ => zeroBatch, allBatchIds := [],
    userBatches := fun _ => [] }

/-- `_getStatusString`: the fixed status-to-label table of the contract. -/
def getStatusString : Status → String
  | Status.Created => "manufactured"
  | Status.InTransit => "in transit"
  | Status.DeliveredToDistributor => "delivered to distributor"
  | Status.DeliveredToRetailer => "delivered to retailer"
  | Status.DeliveredToConsumer => "delivered to consumer"

/-- `createBatch`. The `require`s appear in source order: the
`onlyRole(manufacturer)` modifier, then non-empty id, then the
duplicate-id check (`manufacturingDate == 0`), then `quantity > 0`.
On success every field of the fresh slot is written, the creation message is
pushed onto the slot's (empty) history array, and the two indexes are
extended. -/
def createBatch (s : SCState) (sender now : Nat) (bId : String) (qty : Nat)
    (uId nm loc : String) : Except Err (SCState × List Event) :=
  if sender ≠ s.manufacturer then Except.error Err.Unauthorized
  else if bId = "" then Except.error Err.InvalidArgument
  else if (s.batches bId).manufacturingDate ≠ 0 then Except.error Err.AlreadyExists
  else if qty = 0 then Except.error Err.InvalidArgument
  else
    let nb : Batch :=
      { batchId := bId, quantity := qty, userId := uId, internalBatchName := nm,
        manufacturingDate := now, status := Status.Created, currentLocation := loc,
        currentHolder := s.manufacturer,
        history := (s.batches bId).history ++ ["Batch created by manufacturer"] }
    Except.ok
      ({ s with
          batches := fun i => if i = bId then nb else s.batches i,
          allBatchIds := s.allBatchIds ++ [bId],
          userBatches := fun u => if u = uId then s.userBatches u ++ [bId]
                                  else s.userBatches u },
       [Event.BatchCreated bId nm qty uId])

/-- The branch structure of `updateBatchStatus` (source lines 119-150):
given the caller, the batch's current status and the requested status, either
an error (status check first, then caller check, mirroring the `require`
order) or the history message together with the holder override (`some a`
when the branch assigns `batch.currentHolder = a`, `none` otherwise). -/
def statusCheck (s : SCState) (sender : Nat) (cur t : Status) :
    Except Err (String × Option Nat) :=
  match t with
  | Status.InTransit =>
      if cur = Status.Created ∨ cur = Status.DeliveredToDistributor then
        if sender = s.manufacturer ∨ sender = s.distributor then
          Except.ok
            (if cur = Status.Created then "Shipped by manufacturer to distributor"
             else "Shipped by distributor to retailer", none)
        else Except.error Err.Unauthorized
      else Except.error Err.InvalidTransition
  | Status.DeliveredToDistributor =>
      if cur = Status.InTransit then
        if sender = s.distributor then
          Except.ok ("Delivered to distributor", some s.distributor)
        else Except.error Err.Unauthorized
      else Except.error Err.InvalidTransition
  | Status.DeliveredToRetailer =>
      if cur = Status.InTransit then
        if sender = s.retailer then
          Except.ok ("Delivered to retailer", some s.retailer)
        else Except.error Err.Unauthorized
      else Except.error Err.InvalidTransition
  | Status.DeliveredToConsumer =>
      if cur = Status.DeliveredToRetailer then
        if sender = s.retailer then
          Except.ok ("Delivered to consumer", none)
        else Except.error Err.Unauthorized
      else Except.error Err.InvalidTransition
  | Status.Created => Except.error Err.InvalidTransition

/-- `updateBatchStatus`: the `batchExists` modifier, then the branch on the
requested status (`statusCheck`), then the common tail that writes
`status`, `currentLocation`, pushes the history message, and emits
`BatchStatusUpdated` with the label from `_getStatusString`. The holder
assignment of the two received branches is carried through `statusCheck`. -/
def updateBatchStatus (s : SCState) (sender : Nat) (bId : String) (t : Status)
    (newLoc : String) : Except Err (SCState × List Event) :=
  let b := s.batches bId
  if b.manufacturingDate = 0 then Except.error Err.NotFound
  else
    match statusCheck s sender b.status t with
    | Except.error e => Except.error e
    | Except.ok (msg, newHolder) =>
        let b2 : Batch :=
          { b with status := t, currentLocation := newLoc,
                   currentHolder := newHolder.getD b.currentHolder,
                   history := b.history ++ [msg] }
        Except.ok
          ({ s with batches := fun i => if i = bId then b2 else s.batches i },
           [Event.BatchStatusUpdated bId (getStatusString t) sender newLoc])

/-- `updateBatchHolder` (source lines 270-278): `onlyRole(manufacturer)`,
then `batchExists`, then `newHolder != address(0)`; on success it overwrites
`currentHolder`, pushes one history entry, and emits no event. It does not
read or change `currentLocation` and does not compare `newHolder` with the
current holder. -/
def updateBatchHolder (s : SCState) (sender : Nat) (bId : String)
    (newHolder : Nat) : Except Err (SCState × List Event) :=
  if sender ≠ s.manufacturer then Except.error Err.Unauthorized
  else
    let b := s.batches bId
    if b.manufacturingDate = 0 then Except.error Err.NotFound
    else if newHolder = 0 then Except.error Err.InvalidArgument
    else
      let b2 : Batch :=
        { b with currentHolder := newHolder,
                 history := b.history ++ ["Holder updated by manufacturer"] }
      Except.ok
        ({ s with batches := fun i => if i = bId then b2 else s.batches i }, [])

/-- `setDistributor`: manufacturer-only, rejects the zero address. -/
def setDistributor (s : SCState) (sender newDist : Nat) :
    Except Err (SCState × List Event) :=
  if sender ≠ s.manufacturer then Except.error Err.Unauthorized
  else if newDist = 0 then Except.error Err.InvalidArgument
  else Except.ok ({ s with distributor := newDist }, [])

/-- `setRetailer`: manufacturer-only, rejects the zero address. -/
def setRetailer (s : SCState) (sender newRet : Nat) :
    Except Err (SCState × List Event) :=
  if sender ≠ s.manufacturer then Except.error Err.Unauthorized
  else if newRet = 0 then Except.error Err.InvalidArgument
  else Except.ok ({ s with retailer := newRet }, [])

/-- The tuple `getBatch` returns (status already rendered as a string). -/
structure BatchView where
  batchId : String
  quantity : Nat
  userId : String
  internalBatchName : String
  manufacturingDate : Nat
  status : String
  currentLocation : String
  currentHolder : Nat
deriving DecidableEq

/-- `getBatch`: `batchExists` modifier, then the field tuple with
`_getStatusString` applied to the status. -/
def getBatch (s : SCState) (bId : String) : Except Err BatchView :=
  let b := s.batches bId
  if b.manufacturingDate = 0 then Except.error Err.NotFound
  else Except.ok
    { batchId := b.batchId, quantity := b.quantity, userId := b.userId,
      internalBatchName := b.internalBatchName,
      manufacturingDate := b.manufacturingDate,
      status := getStatusString b.status,
      currentLocation := b.currentLocation, currentHolder := b.currentHolder }

/-- `getBatchHistory`: `batchExists` modifier, then the history array. -/
def getBatchHistory (s : SCState) (bId : String) : Except Err (List String) :=
  if (s.batches bId).manufacturingDate = 0 then Except.error Err.NotFound
  else Except.ok (s.batches bId).history

/-- `batchExistsView`: non-reverting existence check. -/
def batchExistsView (s : SCState) (bId : String) : Bool :=
  (s.batches bId).manufacturingDate ≠ 0

/-- One external mutating call to the contract, with its caller (and, for
`createBatch`, the block timestamp). -/
inductive Op where
  | create (sender now : Nat) (batchId : String) (quantity : Nat)
      (userId internalBatchName initialLocation : String)
  | update (sender : Nat) (batchId : String) (newStatus : Status)
      (newLocation : String)
  | holder (sender : Nat) (batchId : String) (newHolder : Nat)
  | setDist (sender newDistributor : Nat)
  | setRet (sender newRetailer : Nat)

/-- Dispatch an operation to the corresponding contract function. -/
def runOp (s : SCState) : Op → Except Err (SCState × List Event)
  | Op.create sender now bId qty uId nm loc => createBatch s sender now bId qty uId nm loc
  | Op.update sender bId t loc => updateBatchStatus s sender bId t loc
  | Op.holder sender bId nh => updateBatchHolder s sender bId nh
  | Op.setDist sender d => setDistributor s sender d
  | Op.setRet sender r => setRetailer s sender r

/-- EVM transaction semantics: a reverted call rolls the state back entirely
and emits nothing. -/
def applyOp (s : SCState) (o : Op) : SCState × List Event :=
  match runOp s o with
  | Except.ok r => r
  | Except.error _ => (s, [])

/-- Whether a call succeeds (does not revert). -/
def succeeds (s : SCState) (o : Op) : Bool :=
  match runOp s o with
  | Except.ok _ => true
  | Except.error _ => false

/-- Whether an operation is a mutating call targeting batch `bId`. -/
def mutatesBatch (o : Op) (bId : String) : Bool :=
  match o with
  | Op.create _ _ b _ _ _ _ => b = bId
  | Op.update _ b _ _ => b = bId
  | Op.holder _ b _ => b = bId
  | Op.setDist _ _ => false
  | Op.setRet _ _ => false

/-- Run a sequence of calls, each with revert-rollback semantics. -/
def runTrace (s : SCState) : List Op → SCState
  | [] => s
  | o :: os => runTrace (applyOp s o).1 os

/-- Number of successful mutating calls targeting `bId` along a trace. -/
def countMutations (s : SCState) (bId : String) : List Op → Nat
  | [] => 0
  | o :: os =>
      (if mutatesBatch o bId && succeeds s o then 1 else 0) +
        countMutations (applyOp s o).1 bId os

/-- The transition relation `updateBatchStatus` actually enforces, read off
from its `require`s: target `InTransit` from `Created` or
`DeliveredToDistributor`; targets `DeliveredToDistributor` and
`DeliveredToRetailer` from `InTransit`; target `DeliveredToConsumer` from
`DeliveredToRetailer`. -/
def transitionEdge : Status → Status → Bool
  | Status.Created, Status.InTransit => true
  | Status.DeliveredToDistributor, Status.InTransit => true
  | Status.InTransit, Status.DeliveredToDistributor => true
  | Status.InTransit, Status.DeliveredToRetailer => true
  | Status.DeliveredToRetailer, Status.DeliveredToConsumer => true
  | _, _ => false

/-! Concrete deployment used by the witnesses and counterexamples:
address `1` deploys (so is the manufacturer), `2` is the distributor,
`3` is the retailer. -/

/-- Freshly deployed contract. -/
def exS0 : SCState := initState 1 2 3

/-- The manufacturer creates batch `"B1"` at timestamp `10`. -/
def exOp1 : Op := Op.create 1 10 "B1" 5 "u1" "L1" "Plant A"

/-- State after creating `"B1"`. -/
def exS1 : SCState := (applyOp exS0 exOp1).1

/-- The distributor (address `2`, not the manufacturer) marks the
`Created` batch as `InTransit`. -/
def exOp2 : Op := Op.update 2 "B1" Status.InTransit "Road"

/-- State after the distributor dispatched the `Created` batch. -/
def exS2 : SCState := (applyOp exS1 exOp2).1

/-- The retailer receives the batch directly from that transit leg. -/
def exOp3 : Op := Op.update 3 "B1" Status.DeliveredToRetailer "Shop"

/-- State after the retailer received the batch: `DeliveredToDistributor`
was never visited. -/
def exS3 : SCState := (applyOp exS2 exOp3).1

/-- The retailer marks the batch as delivered to the consumer. -/
def exOp4 : Op := Op.update 3 "B1" Status.DeliveredToConsumer "Home"

/-- State with `"B1"` in the terminal status. -/
def exS4 : SCState := (applyOp exS3 exOp4).1

/-- A reverted call leaves the state unchanged and emits nothing. -/
lemma applyOp_error {s : SCState} {o : Op} {e : Err}
    (h : runOp s o = Except.error e) : applyOp s o = (s, []) := by
  simp [applyOp, h]

/-- A committed call produces exactly the result of the contract function. -/
lemma applyOp_ok {s : SCState} {o : Op} {r : SCState × List Event}
    (h : runOp s o = Except.ok r) : applyOp s o = r := by
  simp [applyOp, h]

/-- C1 (amended): for an existing batch in status `Created`, a
`updateBatchStatus` call targeting `InTransit` succeeds exactly when the
caller is the manufacturer OR the distributor (the contract allows both,
not only the manufacturer); any other caller fails with `Unauthorized` and
the whole state is unchanged. -/
theorem c1_thm (s : SCState) (sender : Nat) (bId loc : String)
    (hex : (s.batches bId).manufacturingDate ≠ 0)
    (hcr : (s.batches bId).status = Status.Created) :
    (succeeds s (Op.update sender bId Status.InTransit loc) = true ↔
      sender = s.manufacturer ∨ sender = s.distributor) ∧
    (sender ≠ s.manufacturer → sender ≠ s.distributor →
      runOp s (Op.update sender bId Status.InTransit loc) = Except.error Err.Unauthorized ∧
      applyOp s (Op.update sender bId Status.InTransit loc) = (s, [])) := by
  constructor
  · by_cases hs : sender = s.manufacturer ∨ sender = s.distributor <;>
      simp [succeeds, runOp, updateBatchStatus, statusCheck, hex, hcr, hs]
  · intro h1 h2
    have hs : ¬ (sender = s.manufacturer ∨ sender = s.distributor) := by tauto
    have he : runOp s (Op.update sender bId Status.InTransit loc) =
        Except.error Err.Unauthorized := by
      simp [runOp, updateBatchStatus, statusCheck, hex, hcr, hs]
    exact ⟨he, applyOp_error he⟩

/-- C6 (confirmed): once a batch's status is `DeliveredToConsumer`, every
`updateBatchStatus` call on it, with any caller and any target status,
reverts; the state is unchanged and the status stays
`DeliveredToConsumer` forever. -/
theorem c6_thm (s : SCState) (sender : Nat) (bId : String) (t : Status) (loc : String)
    (h : (s.batches bId).status = Status.DeliveredToConsumer) :
    succeeds s (Op.update sender bId t loc) = false ∧
    applyOp s (Op.update sender bId t loc) = (s, []) ∧
    ((applyOp s (Op.update sender bId t loc)).1.batches bId).status =
      Status.DeliveredToConsumer := by
  have he : ∃ e, runOp s (Op.update sender bId t loc) = Except.error e := by
    by_cases hd : (s.batches bId).manufacturingDate = 0
    · exact ⟨Err.NotFound, by simp [runOp, updateBatchStatus, hd]⟩
    · cases t <;> exact ⟨Err.InvalidTransition,
        by simp [runOp, updateBatchStatus, statusCheck, hd, h]⟩
  obtain ⟨e, he⟩ := he
  have ha := applyOp_error he
  refine ⟨by simp [succeeds, he], ha, by rw [ha]; exact h⟩

lemma statusCheck_edge {s : SCState} {sender : Nat} {cur t : Status}
    {p : String × Option Nat} (h : statusCheck s sender cur t = Except.ok p) :
    transitionEdge cur t = true := by
  cases t
  case Created => exact Except.noConfusion h
  all_goals
    cases cur <;> simp only [statusCheck] at h <;> (try split at h) <;>
      simp_all [transitionEdge]

lemma statusCheck_holder {s : SCState} {sender : Nat} {cur t : Status}
    {msg : String} {nh : Option Nat}
    (h : statusCheck s sender cur t = Except.ok (msg, nh)) :
    (t = Status.DeliveredToDistributor → nh = some s.distributor) ∧
    (t = Status.DeliveredToRetailer → nh = some s.retailer) ∧
    (t ≠ Status.DeliveredToDistributor → t ≠ Status.DeliveredToRetailer →
      nh = none) := by
  cases t
  case Created => exact Except.noConfusion h
  all_goals
    simp only [statusCheck] at h <;> (try split at h) <;> (try split at h) <;>
      simp_all

/-- C3 (confirmed): for every fresh (all-zero slot) non-empty id, positive
quantity, positive timestamp, and any ownerRef/label/location, `createBatch`
called by the manufacturer succeeds and `getBatch` then reports
status `Created` (label "manufactured"), holder = manufacturer,
location = the initial location, and a history of length exactly 1. -/
theorem c3_thm (s : SCState) (sender now : Nat) (bId : String) (qty : Nat)
    (uId nm loc : String)
    (hm : sender = s.manufacturer) (hfresh : s.batches bId = zeroBatch)
    (hid : bId ≠ "") (hq : 0 < qty) (hnow : 0 < now) :
    ∃ s' evs, runOp s (Op.create sender now bId qty uId nm loc) = Except.ok (s', evs) ∧
      (s'.batches bId).status = Status.Created ∧
      (s'.batches bId).currentHolder = s.manufacturer ∧
      (s'.batches bId).currentLocation = loc ∧
      (s'.batches bId).history = ["Batch created by manufacturer"] ∧
      getBatch s' bId = Except.ok
        { batchId := bId, quantity := qty, userId := uId, internalBatchName := nm,
          manufacturingDate := now, status := "manufactured",
          currentLocation := loc, currentHolder := s.manufacturer } ∧
      getBatchHistory s' bId = Except.ok ["Batch created by manufacturer"] := by
  have hq' : qty ≠ 0 := Nat.pos_iff_ne_zero.mp hq
  have hnow' : now ≠ 0 := Nat.pos_iff_ne_zero.mp hnow
  refine ⟨{ s with
      batches := fun i => if i = bId then
        { batchId := bId, quantity := qty, userId := uId, internalBatchName := nm,
          manufacturingDate := now, status := Status.Created, currentLocation := loc,
          currentHolder := s.manufacturer,
          history := (s.batches bId).history ++ ["Batch created by manufacturer"] }
        else s.batches i,
      allBatchIds := s.allBatchIds ++ [bId],
      userBatches := fun u => if u = uId then s.userBatches u ++ [bId]
                              else s.userBatches u },
    [Event.BatchCreated bId nm qty uId], ?_, ?_, ?_, ?_, ?_, ?_, ?_⟩ <;>
    simp [runOp, createBatch, getBatch, getBatchHistory, getStatusString,
      hm, hfresh, hid, hq', hnow', zeroBatch]

/-- Destructure a successful updateBatchStatus call. -/
lemma update_ok_dest {s : SCState} {sender : Nat} {bId : String} {t : Status}
    {loc : String} {s' : SCState} {evs : List Event}
    (h : runOp s (Op.update sender bId t loc) = Except.ok (s', evs)) :
    (s.batches bId).manufacturingDate ≠ 0 ∧
    ∃ msg nh, statusCheck s sender (s.batches bId).status t = Except.ok (msg, nh) ∧
      s' = { s with batches := fun i => if i = bId then
               { (s.batches bId) with
                   status := t,
                   currentLocation := loc,
                   currentHolder := nh.getD (s.batches bId).currentHolder,
                   history := (s.batches bId).history ++ [msg] }
             else s.batches i } ∧
      evs = [Event.BatchStatusUpdated bId (getStatusString t) sender loc] := by
  simp only [runOp, updateBatchStatus] at h
  by_cases hd : (s.batches bId).manufacturingDate = 0
  · simp [hd] at h
  · simp only [hd, if_false] at h
    rcases hc : statusCheck s sender (s.batches bId).status t with e | ⟨msg, nh⟩
    · rw [hc] at h; exact Except.noConfusion h
    · rw [hc] at h
      simp only [Except.ok.injEq, Prod.mk.injEq] at h
      exact ⟨hd, msg, nh, rfl, h.1.symm, h.2.symm⟩

/-- C2 (amended): every successful `updateBatchStatus` call moves the
batch's status along one of the edges the contract's `require`s enforce
(`transitionEdge`), and afterwards the status equals the requested target.
Because the two `InTransit` legs share one enum value, this edge relation
admits skipping `DeliveredToDistributor` and cycling
`InTransit`/`DeliveredToDistributor`; it is not the strictly linear chain
of the original claim. -/
theorem c2_thm (s : SCState) (sender : Nat) (bId : String) (t : Status)
    (loc : String) (s' : SCState) (evs : List Event)
    (h : runOp s (Op.update sender bId t loc) = Except.ok (s', evs)) :
    transitionEdge (s.batches bId).status t = true ∧ (s'.batches bId).status = t := by
  obtain ⟨hd, msg, nh, hc, hs', hevs⟩ := update_ok_dest h
  subst hs'
  exact ⟨statusCheck_edge hc, by simp⟩

/-- C8 (confirmed): every successful `updateBatchStatus` emits exactly one
`BatchStatusUpdated` event whose label is `getStatusString` of the new
status, and `getBatch` immediately afterwards reports exactly that same
string as the batch's status. -/
theorem c8_thm (s : SCState) (sender : Nat) (bId : String) (t : Status)
    (loc : String) (s' : SCState) (evs : List Event)
    (h : runOp s (Op.update sender bId t loc) = Except.ok (s', evs)) :
    evs = [Event.BatchStatusUpdated bId (getStatusString t) sender loc] ∧
    Except.map BatchView.status (getBatch s' bId) = Except.ok (getStatusString t) := by
  obtain ⟨hd, msg, nh, hc, hs', hevs⟩ := update_ok_dest h
  subst hs'
  exact ⟨hevs, by simp [getBatch, Except.map, hd]⟩

/-- C9 (confirmed): a successful `updateBatchStatus` never changes the
batch's id, quantity, userId (ownerRef), internalBatchName (label) or
manufacturingDate (createdAt); the holder becomes the distributor exactly
for target `DeliveredToDistributor`, the retailer exactly for target
`DeliveredToRetailer`, and is untouched for every other target. -/
theorem c9_thm (s : SCState) (sender : Nat) (bId : String) (t : Status)
    (loc : String) (s' : SCState) (evs : List Event)
    (h : runOp s (Op.update sender bId t loc) = Except.ok (s', evs)) :
    (s'.batches bId).batchId = (s.batches bId).batchId ∧
    (s'.batches bId).quantity = (s.batches bId).quantity ∧
    (s'.batches bId).userId = (s.batches bId).userId ∧
    (s'.batches bId).internalBatchName = (s.batches bId).internalBatchName ∧
    (s'.batches bId).manufacturingDate = (s.batches bId).manufacturingDate ∧
    (s'.batches bId).currentHolder =
      (match t with
       | Status.DeliveredToDistributor => s.distributor
       | Status.DeliveredToRetailer => s.retailer
       | _ => (s.batches bId).currentHolder) := by
  obtain ⟨hd, msg, nh, hc, hs', hevs⟩ := update_ok_dest h
  obtain ⟨h1, h2, h3⟩ := statusCheck_holder hc
  subst hs'
  refine ⟨by simp, by simp, by simp, by simp, by simp, ?_⟩
  cases t <;> simp_all

/-- C10 (confirmed): the history entry recorded by a successful transition
to `InTransit` depends only on the batch's prior status, not on which of
the two accepted callers (manufacturer or distributor) performed it:
from `Created` it is "Shipped by manufacturer to distributor", from
`DeliveredToDistributor` it is "Shipped by distributor to retailer" — so
the recorded actor can differ from the actual caller. -/
theorem c10_thm (s : SCState) (sender : Nat) (bId loc : String)
    (hex : (s.batches bId).manufacturingDate ≠ 0)
    (hs : sender = s.manufacturer ∨ sender = s.distributor) :
    ((s.batches bId).status = Status.Created →
      ∃ s', runOp s (Op.update sender bId Status.InTransit loc) =
          Except.ok (s', [Event.BatchStatusUpdated bId "in transit" sender loc]) ∧
        (s'.batches bId).history =
          (s.batches bId).history ++ ["Shipped by manufacturer to distributor"]) ∧
    ((s.batches bId).status = Status.DeliveredToDistributor →
      ∃ s', runOp s (Op.update sender bId Status.InTransit loc) =
          Except.ok (s', [Event.BatchStatusUpdated bId "in transit" sender loc]) ∧
        (s'.batches bId).history =
          (s.batches bId).history ++ ["Shipped by distributor to retailer"]) := by
  constructor
  · intro hcr
    refine ⟨{ s with batches := fun i => if i = bId then
                 { (s.batches bId) with
                     status := Status.InTransit,
                     currentLocation := loc,
                     history := (s.batches bId).history ++
                       ["Shipped by manufacturer to distributor"] }
               else s.batches i }, ?_, ?_⟩
    · simp [runOp, updateBatchStatus, statusCheck, getStatusString, hex, hcr, hs]
    · simp
  · intro hdd
    refine ⟨{ s with batches := fun i => if i = bId then
                 { (s.batches bId) with
                     status := Status.InTransit,
                     currentLocation := loc,
                     history := (s.batches bId).history ++
                       ["Shipped by distributor to retailer"] }
               else s.batches i }, ?_, ?_⟩
    · simp [runOp, updateBatchStatus, statusCheck, getStatusString, hex, hdd, hs]
    · simp

/-- C4 (amended): `updateBatchHolder` requires the caller to be the
manufacturer (not the batch's current holder), failing with `Unauthorized`
otherwise; requires only that the new holder is non-zero (it may equal the
current holder), failing with `InvalidArgument` otherwise; and on success
sets the holder, appends exactly one history entry, leaves the location
(and status) unchanged — the function takes no location argument — and
emits no event. -/
theorem c4_thm (s : SCState) (sender : Nat) (bId : String) (nh : Nat) :
    (sender ≠ s.manufacturer →
      runOp s (Op.holder sender bId nh) = Except.error Err.Unauthorized) ∧
    (sender = s.manufacturer → (s.batches bId).manufacturingDate ≠ 0 → nh = 0 →
      runOp s (Op.holder sender bId nh) = Except.error Err.InvalidArgument) ∧
    (sender = s.manufacturer → (s.batches bId).manufacturingDate ≠ 0 → nh ≠ 0 →
      ∃ s', runOp s (Op.holder sender bId nh) = Except.ok (s', []) ∧
        (s'.batches bId).currentHolder = nh ∧
        (s'.batches bId).currentLocation = (s.batches bId).currentLocation ∧
        (s'.batches bId).status = (s.batches bId).status ∧
        (s'.batches bId).history =
          (s.batches bId).history ++ ["Holder updated by manufacturer"]) := by
  refine ⟨?_, ?_, ?_⟩
  · intro hs
    simp [runOp, updateBatchHolder, hs]
  · intro hs hd hz
    simp [runOp, updateBatchHolder, hs, hd, hz]
  · intro hs hd hz
    refine ⟨{ s with batches := fun i => if i = bId then
                 { (s.batches bId) with
                     currentHolder := nh,
                     history := (s.batches bId).history ++
                       ["Holder updated by manufacturer"] }
               else s.batches i }, ?_, ?_⟩
    · simp [runOp, updateBatchHolder, hs, hd, hz]
    · simp

/-- C5 (confirmed): after a successful `createBatch`, creating the same id
again (by the manufacturer, the only caller that reaches the duplicate
check) fails with `AlreadyExists` and the entire state — batch, indexes and
event log — is exactly as before the failed call; and in general every
operation that fails performs no mutation and emits no event. -/
theorem c5_thm :
    (∀ (s : SCState) (sender now : Nat) (bId : String) (qty : Nat)
        (uId nm loc : String) (s' : SCState) (evs : List Event),
      runOp s (Op.create sender now bId qty uId nm loc) = Except.ok (s', evs) →
      0 < now →
      ∀ (now2 : Nat) (qty2 : Nat) (uId2 nm2 loc2 : String),
        runOp s' (Op.create s'.manufacturer now2 bId qty2 uId2 nm2 loc2) =
          Except.error Err.AlreadyExists ∧
        applyOp s' (Op.create s'.manufacturer now2 bId qty2 uId2 nm2 loc2) =
          (s', [])) ∧
    (∀ (s : SCState) (o : Op) (e : Err),
      runOp s o = Except.error e → applyOp s o = (s, [])) := by
  constructor
  · intro s sender now bId qty uId nm loc s' evs h hnow now2 qty2 uId2 nm2 loc2
    simp only [runOp, createBatch] at h
    split at h
    · exact Except.noConfusion h
    · split at h
      · exact Except.noConfusion h
      · split at h
        · exact Except.noConfusion h
        · split at h
          · exact Except.noConfusion h
          · rename_i h1 h2 h3 h4
            simp only [Except.ok.injEq, Prod.mk.injEq] at h
            obtain ⟨hs', hevs⟩ := h
            have hmfd : (s'.batches bId).manufacturingDate ≠ 0 := by
              rw [← hs']
              simp
              exact Nat.pos_iff_ne_zero.mp hnow
            have he : runOp s' (Op.create s'.manufacturer now2 bId qty2 uId2 nm2 loc2) =
                Except.error Err.AlreadyExists := by
              simp [runOp, createBatch, h2, hmfd]
            exact ⟨he, applyOp_error he⟩
  · intro s o e h
    exact applyOp_error h

/-- A successful mutating call targeting a batch appends exactly one entry. -/
lemma hist_mut_ok {s : SCState} {o : Op} {bId : String} {r : SCState × List Event}
    (hm : mutatesBatch o bId = true) (h : runOp s o = Except.ok r) :
    ∃ entry, (r.1.batches bId).history = (s.batches bId).history ++ [entry] := by
  cases o with
  | create sender now b qty uId nm loc =>
      simp only [mutatesBatch, decide_eq_true_eq] at hm
      subst hm
      simp only [runOp, createBatch] at h
      split at h
      · exact Except.noConfusion h
      · split at h
        · exact Except.noConfusion h
        · split at h
          · exact Except.noConfusion h
          · split at h
            · exact Except.noConfusion h
            · simp only [Except.ok.injEq] at h
              refine ⟨"Batch created by manufacturer", ?_⟩
              rw [← h]
              simp
  | update sender b t loc =>
      simp only [mutatesBatch, decide_eq_true_eq] at hm
      subst hm
      obtain ⟨r1, r2⟩ := r
      obtain ⟨hd, msg, nh, hc, hs', hevs⟩ := update_ok_dest h
      subst hs'
      exact ⟨msg, by simp⟩
  | holder sender b nh =>
      simp only [mutatesBatch, decide_eq_true_eq] at hm
      subst hm
      simp only [runOp, updateBatchHolder] at h
      split at h
      · exact Except.noConfusion h
      · split at h
        · exact Except.noConfusion h
        · split at h
          · exact Except.noConfusion h
          · simp only [Except.ok.injEq] at h
            refine ⟨"Holder updated by manufacturer", ?_⟩
            rw [← h]
            simp
  | setDist sender d => simp [mutatesBatch] at hm
  | setRet sender r' => simp [mutatesBatch] at hm

/-- A call that does not target a batch leaves its slot untouched. -/
lemma batches_other {s : SCState} {o : Op} {bId : String}
    (hm : mutatesBatch o bId = false) :
    ((applyOp s o).1).batches bId = s.batches bId := by
  cases o with
  | create sender now b qty uId nm loc =>
      simp only [mutatesBatch, decide_eq_false_iff_not] at hm
      have hm' : bId ≠ b := fun hx => hm hx.symm
      unfold applyOp
      rcases hr : runOp s (Op.create sender now b qty uId nm loc) with e | r
      · rfl
      · simp only [runOp, createBatch] at hr
        split at hr
        · exact Except.noConfusion hr
        · split at hr
          · exact Except.noConfusion hr
          · split at hr
            · exact Except.noConfusion hr
            · split at hr
              · exact Except.noConfusion hr
              · simp only [Except.ok.injEq] at hr
                rw [← hr]
                simp [hm']
  | update sender b t loc =>
      simp only [mutatesBatch, decide_eq_false_iff_not] at hm
      have hm' : bId ≠ b := fun hx => hm hx.symm
      unfold applyOp
      rcases hr : runOp s (Op.update sender b t loc) with e | r
      · rfl
      · obtain ⟨r1, r2⟩ := r
        obtain ⟨hd, msg, nh, hc, hs', hevs⟩ := update_ok_dest hr
        subst hs'
        simp [hm']
  | holder sender b nh =>
      simp only [mutatesBatch, decide_eq_false_iff_not] at hm
      have hm' : bId ≠ b := fun hx => hm hx.symm
      unfold applyOp
      rcases hr : runOp s (Op.holder sender b nh) with e | r
      · rfl
      · simp only [runOp, updateBatchHolder] at hr
        split at hr
        · exact Except.noConfusion hr
        · split at hr
          · exact Except.noConfusion hr
          · split at hr
            · exact Except.noConfusion hr
            · simp only [Except.ok.injEq] at hr
              rw [← hr]
              simp [hm']
  | setDist sender d =>
      unfold applyOp
      rcases hr : runOp s (Op.setDist sender d) with e | r
      · rfl
      · simp only [runOp, setDistributor] at hr
        split at hr
        · exact Except.noConfusion hr
        · split at hr
          · exact Except.noConfusion hr
          · simp only [Except.ok.injEq] at hr
            rw [← hr]
  | setRet sender r' =>
      unfold applyOp
      rcases hr : runOp s (Op.setRet sender r') with e | r
      · rfl
      · simp only [runOp, setRetailer] at hr
        split at hr
        · exact Except.noConfusion hr
        · split at hr
          · exact Except.noConfusion hr
          · simp only [Except.ok.injEq] at hr
            rw [← hr]

/-- Each step either appends one entry or leaves the history unchanged. -/
lemma hist_step (s : SCState) (o : Op) (bId : String) :
    (((applyOp s o).1).batches bId).history = (s.batches bId).history ∨
    ∃ entry, (((applyOp s o).1).batches bId).history =
      (s.batches bId).history ++ [entry] := by
  rcases hm : mutatesBatch o bId with _ | _
  · left
    rw [batches_other hm]
  · rcases hr : runOp s o with e | r
    · left; rw [applyOp_error hr]
    · right
      rw [applyOp_ok hr]
      exact hist_mut_ok hm hr

/-- History length along a trace grows by exactly the number of successful
mutating calls targeting the batch. -/
lemma hist_len_trace (ops : List Op) :
    ∀ (s : SCState) (bId : String),
      (((runTrace s ops)).batches bId).history.length =
        (s.batches bId).history.length + countMutations s bId ops := by
  induction ops with
  | nil => intro s bId; simp [runTrace, countMutations]
  | cons o os ih =>
      intro s bId
      rw [runTrace, countMutations, ih]
      rcases hb : mutatesBatch o bId with _ | _
      · rw [batches_other hb]
        simp
      · rcases hs : succeeds s o with _ | _
        · unfold succeeds at hs
          rcases hr : runOp s o with e | r
          · rw [applyOp_error hr]
            simp
          · rw [hr] at hs; exact Bool.noConfusion hs
        · unfold succeeds at hs
          rcases hr : runOp s o with e | r
          · rw [hr] at hs; exact Bool.noConfusion hs
          · obtain ⟨entry, he⟩ := hist_mut_ok hb hr
            rw [applyOp_ok hr, he]
            simp [hb, hs]
            omega

/-- Along a trace a batch's history is only ever extended. -/
lemma hist_app_trace (ops : List Op) :
    ∀ (s : SCState) (bId : String),
      ∃ tail, (((runTrace s ops)).batches bId).history =
        (s.batches bId).history ++ tail := by
  induction ops with
  | nil => intro s bId; exact ⟨[], by simp [runTrace]⟩
  | cons o os ih =>
      intro s bId
      obtain ⟨tail, ht⟩ := ih (applyOp s o).1 bId
      rcases hist_step s o bId with h | ⟨entry, h⟩
      · exact ⟨tail, by rw [runTrace, ht, h]⟩
      · exact ⟨entry :: tail, by rw [runTrace, ht, h]; simp⟩

/-- C7 (confirmed): every successful mutating call targeting a batch
(createBatch, updateBatchStatus, updateBatchHolder) appends exactly one
entry to that batch's history; along any trace of calls the history is
only ever extended (never removed or reordered); and starting from a fresh
slot the history length equals the number of successful mutating calls
targeting the batch — i.e. N+1 after the creation entry plus N further
successful mutations, in call order. -/
theorem c7_thm (s : SCState) (bId : String) :
    (∀ (o : Op) (r : SCState × List Event), mutatesBatch o bId = true →
      runOp s o = Except.ok r →
      ∃ entry, (r.1.batches bId).history = (s.batches bId).history ++ [entry]) ∧
    (∀ ops : List Op, ∃ tail,
      (((runTrace s ops)).batches bId).history =
        (s.batches bId).history ++ tail) ∧
    (∀ ops : List Op, (s.batches bId).history = [] →
      (((runTrace s ops)).batches bId).history.length =
        countMutations s bId ops) := by
  refine ⟨fun o r hm h => hist_mut_ok hm h, fun ops => hist_app_trace ops s bId,
    fun ops h0 => ?_⟩
  rw [hist_len_trace ops s bId, h0]
  simp

/-- C1 counterexample: the claim says only the manufacturer can move a
`Created` batch to `InTransit` and any other identity (including the
distributor) fails with `Unauthorized`; here the distributor (address 2,
distinct from the manufacturer, address 1) succeeds. -/
theorem c1_cex :
    exS1.manufacturer = 1 ∧ exS1.distributor = 2 ∧
    (exS1.batches "B1").status = Status.Created ∧
    succeeds exS1 (Op.update 2 "B1" Status.InTransit "Road") = true := by
  refine ⟨by decide, by decide, by decide, by decide⟩

/-- C1 witness. -/
theorem c1_wit :
    runOp exS1 (Op.update 4 "B1" Status.InTransit "X") =
      Except.error Err.Unauthorized := by
  exact ((c1_thm exS1 4 "B1" "X" (by decide) (by decide)).2
    (by decide) (by decide)).1

/-- C2 counterexample: a successful concrete trace reaches
`DeliveredToRetailer` from an `InTransit` that came directly from
`Created`, never passing `DeliveredToDistributor` — the linear chain of
the claim is skipped. -/
theorem c2_cex :
    succeeds exS0 exOp1 = true ∧ succeeds exS1 exOp2 = true ∧
    succeeds exS2 exOp3 = true ∧
    (exS1.batches "B1").status = Status.Created ∧
    (exS2.batches "B1").status = Status.InTransit ∧
    (exS3.batches "B1").status = Status.DeliveredToRetailer := by
  refine ⟨by decide, by decide, by decide, by decide, by decide, by decide⟩

/-- C2 witness. -/
theorem c2_wit :
    transitionEdge (exS1.batches "B1").status Status.InTransit = true ∧
    (((applyOp exS1 exOp2).1).batches "B1").status = Status.InTransit := by
  exact c2_thm exS1 2 "B1" Status.InTransit "Road"
    (applyOp exS1 exOp2).1 (applyOp exS1 exOp2).2 rfl

/-- C3 witness. -/
theorem c3_wit :
    ∃ s' evs, runOp exS0 (Op.create 1 10 "B1" 5 "u1" "L1" "Plant A") =
        Except.ok (s', evs) ∧
      (s'.batches "B1").status = Status.Created ∧
      (s'.batches "B1").currentHolder = exS0.manufacturer ∧
      (s'.batches "B1").currentLocation = "Plant A" ∧
      (s'.batches "B1").history = ["Batch created by manufacturer"] ∧
      getBatch s' "B1" = Except.ok
        { batchId := "B1", quantity := 5, userId := "u1",
          internalBatchName := "L1", manufacturingDate := 10,
          status := "manufactured", currentLocation := "Plant A",
          currentHolder := exS0.manufacturer } ∧
      getBatchHistory s' "B1" = Except.ok ["Batch created by manufacturer"] := by
  exact c3_thm exS0 1 10 "B1" 5 "u1" "L1" "Plant A" (by decide) rfl
    (by decide) (by decide) (by decide)

/-- C4 counterexample: the batch's current holder is the retailer
(address 3), yet the retailer's `updateBatchHolder` call fails with
`Unauthorized` while the manufacturer (address 1, not the holder)
succeeds — even with the new holder equal to the current one, which the
claim says must fail with `InvalidArgument`; moreover the call leaves the
location unchanged and emits no event, against the claimed
location update and transfer event. -/
theorem c4_cex :
    (exS3.batches "B1").currentHolder = 3 ∧
    runOp exS3 (Op.holder 3 "B1" 9) = Except.error Err.Unauthorized ∧
    succeeds exS3 (Op.holder 1 "B1" 3) = true ∧
    (applyOp exS3 (Op.holder 1 "B1" 9)).2 = [] ∧
    (((applyOp exS3 (Op.holder 1 "B1" 9)).1).batches "B1").currentLocation =
      (exS3.batches "B1").currentLocation := by
  refine ⟨by decide, by rfl, by decide, by decide, by decide⟩

/-- C4 witness. -/
theorem c4_wit :
    ∃ s', runOp exS3 (Op.holder 1 "B1" 9) = Except.ok (s', []) ∧
      (s'.batches "B1").currentHolder = 9 ∧
      (s'.batches "B1").currentLocation = (exS3.batches "B1").currentLocation ∧
      (s'.batches "B1").status = (exS3.batches "B1").status ∧
      (s'.batches "B1").history =
        (exS3.batches "B1").history ++ ["Holder updated by manufacturer"] := by
  exact (c4_thm exS3 1 "B1" 9).2.2 rfl (by decide) (by decide)

/-- C5 witness. -/
theorem c5_wit :
    runOp ((applyOp exS0 exOp1).1)
        (Op.create ((applyOp exS0 exOp1).1).manufacturer 11 "B1" 7 "u2" "L2" "Q") =
      Except.error Err.AlreadyExists ∧
    applyOp ((applyOp exS0 exOp1).1)
        (Op.create ((applyOp exS0 exOp1).1).manufacturer 11 "B1" 7 "u2" "L2" "Q") =
      ((applyOp exS0 exOp1).1, []) := by
  exact c5_thm.1 exS0 1 10 "B1" 5 "u1" "L1" "Plant A"
    (applyOp exS0 exOp1).1 (applyOp exS0 exOp1).2 rfl (by decide)
    11 7 "u2" "L2" "Q"

/-- C6 witness. -/
theorem c6_wit :
    succeeds exS4 (Op.update 3 "B1" Status.InTransit "X") = false ∧
    applyOp exS4 (Op.update 3 "B1" Status.InTransit "X") = (exS4, []) ∧
    (((applyOp exS4 (Op.update 3 "B1" Status.InTransit "X")).1).batches "B1").status =
      Status.DeliveredToConsumer := by
  exact c6_thm exS4 3 "B1" Status.InTransit "X" (by decide)

/-- C7 witness. -/
theorem c7_wit :
    (∃ entry, (((applyOp exS0 exOp1).1).batches "B1").history =
      (exS0.batches "B1").history ++ [entry]) ∧
    ((runTrace exS0 [exOp1, exOp2]).batches "B1").history.length =
      countMutations exS0 "B1" [exOp1, exOp2] := by
  refine ⟨(c7_thm exS0 "B1").1 exOp1 (applyOp exS0 exOp1) (by decide) rfl,
    (c7_thm exS0 "B1").2.2 [exOp1, exOp2] rfl⟩

/-- C8 witness. -/
theorem c8_wit :
    (applyOp exS2 exOp3).2 =
      [Event.BatchStatusUpdated "B1" (getStatusString Status.DeliveredToRetailer)
        3 "Shop"] ∧
    Except.map BatchView.status (getBatch ((applyOp exS2 exOp3).1) "B1") =
      Except.ok (getStatusString Status.DeliveredToRetailer) := by
  exact c8_thm exS2 3 "B1" Status.DeliveredToRetailer "Shop"
    (applyOp exS2 exOp3).1 (applyOp exS2 exOp3).2 rfl

/-- C9 witness. -/
theorem c9_wit :
    (((applyOp exS2 exOp3).1).batches "B1").quantity = (exS2.batches "B1").quantity ∧
    (((applyOp exS2 exOp3).1).batches "B1").currentHolder = exS2.retailer := by
  have h := c9_thm exS2 3 "B1" Status.DeliveredToRetailer "Shop"
    (applyOp exS2 exOp3).1 (applyOp exS2 exOp3).2 rfl
  exact ⟨h.2.1, h.2.2.2.2.2⟩

/-- C10 witness: the distributor (address 2) dispatches a Created batch and
the recorded entry still names the manufacturer. -/
theorem c10_wit :
    ∃ s', runOp exS1 (Op.update 2 "B1" Status.InTransit "Road") =
        Except.ok (s', [Event.BatchStatusUpdated "B1" "in transit" 2 "Road"]) ∧
      (s'.batches "B1").history =
        (exS1.batches "B1").history ++ ["Shipped by manufacturer to distributor"] := by
  exact (c10_thm exS1 2 "B1" "Road" (by decide) (Or.inr (by decide))).1 (by decide)

end SupplyChain
